import Mathlib

/-!
Verification of the VDO token-ledger engine described in `spec.md` against the
code in `src/src/components/TokenManagement.tsx`.

Embedding conventions:
* JavaScript numbers carrying token amounts are embedded as `ℚ` (all the
  arithmetic the engine performs — comparison, addition, subtraction — is exact
  on the values involved; where `parseFloat` can produce `NaN` the parse result
  is an `Option ℚ` with `none` for `NaN`).
* The Supabase row for the current user in `user_tokens` is an
  `Option UserTokens`; the append-only `token_transactions` table for the user
  is a `List TokenTransaction` in insertion order.
* Client functions are embedded directly from the component source; the
  `update-user-tokens` edge function invoked at line 105 is not part of the
  sources under `src/`, so it is modelled from the spec (§4.3) — each such
  definition says so in its doc comment.
-/

namespace TokenManagement

/-- Transaction types, from the `TokenTransaction.transaction_type` union at
line 17 of the component: a closed set of four tags. -/
inductive TxType
  | earn
  | spend
  | stake
  | unstake
deriving DecidableEq, Repr

/-- The `UserTokens` row shape (lines 24-29): current balance and lifetime
aggregates. The database-generated `id` plays no role in the engine and is
omitted. -/
structure UserTokens where
  balance : ℚ
  total_earned : ℚ
  total_spent : ℚ
deriving DecidableEq, Repr

/-- The `TokenTransaction` row shape (lines 15-22). The database-generated `id`
is omitted; `created_at` is an abstract clock value (ℕ), and insertion order is
the order of the ledger list. -/
structure TokenTransaction where
  transaction_type : TxType
  amount : ℚ
  source : String
  description : String
  created_at : ℕ
deriving DecidableEq, Repr

/-- The argument record passed to `updateTokensMutation.mutate`
(lines 91-96). -/
structure TxRequest where
  amount : ℚ
  type : TxType
  source : String
  description : String
deriving DecidableEq, Repr

/-- Error codes surfaced by the row store; `PGRST116` is the PostgREST code for
"no rows returned", tested at line 50. -/
inductive DbErrorCode
  | pgrst116
deriving DecidableEq, Repr

/-- The `.select().eq(user_id).single()` read of the `user_tokens` row
(lines 43-47): the row when present, error code `PGRST116` when absent. -/
def selectUserTokensSingle (db : Option UserTokens) : Except DbErrorCode UserTokens :=
  match db with
  | some row => .ok row
  | none => .error .pgrst116

/-- The starting grant inserted on first access (insert body, lines 53-58). -/
def startingGrant : UserTokens :=
  { balance := 1000, total_earned := 1000, total_spent := 0 }

/-- Embeds the `userTokens` query function (lines 39-69): try to read the
existing row; on `PGRST116` insert the starting grant and return the inserted
row. Result: the `user_tokens` store afterwards, and the returned snapshot. -/
def userTokensQueryFn (db : Option UserTokens) : Option UserTokens × UserTokens :=
  match selectUserTokensSingle db with
  | .ok data => (db, data)
  | .error .pgrst116 => (some startingGrant, startingGrant)

/-- The descending `created_at` comparison requested by
`.order('created_at', { ascending: false })` at line 81. -/
def createdAtDesc (a b : TokenTransaction) : Bool :=
  b.created_at ≤ a.created_at

/-- Modelled from the spec: the ordered range query over the append-only
`token_transactions` store is executed by the database, which is not part of
the sources under `src/`; §4.2 requires the most recent `limit` entries
"ordered by `createdAt` descending, ties broken by insertion order" — i.e. a
stable descending sort of the ledger followed by taking the first `limit`. -/
def orderByCreatedAtDescLimit (limitN : ℕ) (ledger : List TokenTransaction) :
    List TokenTransaction :=
  (ledger.mergeSort createdAtDesc).take limitN

/-- Embeds the `transactions` query function (lines 75-86): the user's ledger
ordered by `created_at` descending, limited to 20 entries. -/
def transactionsQueryFn (ledger : List TokenTransaction) : List TokenTransaction :=
  orderByCreatedAtDescLimit 20 ledger

/-- Typed rejection reasons of the transaction processor (§7 of the spec). -/
inductive RejectReason
  | invalidAmount
  | insufficientBalance
  | belowMinimumStake
  | exceedsStakedAmount
deriving DecidableEq, Repr

/-- Server-side state per user: the account row, the separately tracked
staked-amount counter (§4.3 rationale), and the append-only ledger. -/
structure ServerState where
  account : UserTokens
  staked : ℚ
  ledger : List TokenTransaction
deriving DecidableEq, Repr

/-- Modelled from the spec: the `update-user-tokens` edge function invoked at
line 105 is not under `src/`. Following §4.3: validation steps 1-5 in order,
short-circuiting on first failure (`InvalidAmount` for non-positive amounts,
`InsufficientBalance` when a spend/stake exceeds the balance,
`BelowMinimumStake` for stakes under 100, `ExceedsStakedAmount` for unstakes
over the staked counter); on acceptance the effect table is applied to the
account and the staked counter, and one ledger entry is appended with the
clock value as `created_at`. -/
def proposeTransaction (st : ServerState) (now : ℕ) (req : TxRequest) :
    Except RejectReason ServerState :=
  if req.amount ≤ 0 then .error .invalidAmount
  else if (req.type = .spend ∨ req.type = .stake) ∧ st.account.balance < req.amount then
    .error .insufficientBalance
  else if req.type = .stake ∧ req.amount < 100 then .error .belowMinimumStake
  else if req.type = .unstake ∧ st.staked < req.amount then .error .exceedsStakedAmount
  else
    let acct := st.account
    let acct' :=
      match req.type with
      | .earn =>
          { acct with
            balance := acct.balance + req.amount
            total_earned := acct.total_earned + req.amount }
      | .spend =>
          { acct with
            balance := acct.balance - req.amount
            total_spent := acct.total_spent + req.amount }
      | .stake =>
          { acct with
            balance := acct.balance - req.amount
            total_spent := acct.total_spent + req.amount }
      | .unstake =>
          { acct with
            balance := acct.balance + req.amount
            total_spent := acct.total_spent - req.amount }
    let staked' :=
      match req.type with
      | .stake => st.staked + req.amount
      | .unstake => st.staked - req.amount
      | _ => st.staked
    let entry : TokenTransaction :=
      { transaction_type := req.type
        amount := req.amount
        source := req.source
        description := req.description
        created_at := now }
    .ok { account := acct', staked := staked', ledger := st.ledger ++ [entry] }

/-- Errors thrown by `updateTokensMutation.mutationFn`: the authentication
guard (line 97), the client-side balance check (line 101), and errors returned
by the edge function (line 116). -/
inductive MutationError
  | notAuthenticated
  | insufficientBalance
  | processorReject (r : RejectReason)
deriving DecidableEq, Repr

/-- The client-side balance check condition at line 100:
`(type === 'spend' || type === 'stake') && userTokens && userTokens.balance < amount`.
JS truthiness of `userTokens` means the comparison runs only when a cached
snapshot is present. -/
def insufficientClientCheck (userTokens : Option UserTokens) (req : TxRequest) : Bool :=
  (req.type == .spend || req.type == .stake) &&
    (match userTokens with
     | some t => decide (t.balance < req.amount)
     | none => false)

/-- The `supabase.functions.invoke('update-user-tokens', ...)` call at
lines 105-114: the request is forwarded to the processor; a processor rejection
is rethrown by line 116, an acceptance commits the new server state. -/
def invokeUpdateUserTokens (st : ServerState) (now : ℕ) (req : TxRequest) :
    ServerState × Except MutationError Unit :=
  match proposeTransaction st now req with
  | .error r => (st, .error (.processorReject r))
  | .ok st' => (st', .ok ())

/-- Embeds `updateTokensMutation.mutationFn` (lines 90-118): authentication
guard, client-side balance check against the cached snapshot, then the edge
function invocation. Returns the server state afterwards and the outcome. -/
def updateTokensMutationFn (userPresent : Bool) (userTokens : Option UserTokens)
    (st : ServerState) (now : ℕ) (req : TxRequest) :
    ServerState × Except MutationError Unit :=
  if userPresent = false then (st, .error .notAuthenticated)
  else if insufficientClientCheck userTokens req then (st, .error .insufficientBalance)
  else invokeUpdateUserTokens st now req

/-- Outcomes of `handleStake`: the two rejecting toasts, or a call to
`updateTokensMutation.mutate` with the constructed request. -/
inductive StakeHandlerResult
  | invalidAmountToast
  | minimumStakeToast
  | mutate (req : TxRequest)
deriving DecidableEq, Repr

/-- The interpolated description built at line 157. -/
def stakeDescription (a : ℚ) : String :=
  "Staked " ++ toString a ++ " VDO tokens"

/-- Embeds `handleStake` (lines 133-167). The `parseFloat` result is an
`Option ℚ`, `none` standing for `NaN`; `!amount || amount <= 0` rejects `NaN`,
zero and negative inputs, then amounts under 100 are rejected, and otherwise a
stake request is passed to the mutation. -/
def handleStake (parsed : Option ℚ) : StakeHandlerResult :=
  match parsed with
  | none => .invalidAmountToast
  | some amount =>
    if amount ≤ 0 then .invalidAmountToast
    else if amount < 100 then .minimumStakeToast
    else .mutate
      { amount := amount
        type := .stake
        source := "staking"
        description := stakeDescription amount }

/-- Embeds `handleClaimRewards` (lines 169-185): the request it passes to
`updateTokensMutation.mutate`, with `rewardAmount = 100`. -/
def handleClaimRewards : TxRequest :=
  { amount := 100, type := .earn, source := "daily_reward", description := "Daily login reward" }

/-- Sequential processing of a batch of proposals in commit order against one
account: each proposal is validated against the state left by the previous
ones (the linearized execution that §5 mandates for same-account proposals).
Returns the final state and the per-proposal verdicts. -/
def processAll (st : ServerState) (now : ℕ) :
    List TxRequest → ServerState × List (Except RejectReason Unit)
  | [] => (st, [])
  | req :: reqs =>
    match proposeTransaction st now req with
    | .ok st' =>
      let rest := processAll st' now reqs
      (rest.1, .ok () :: rest.2)
    | .error r =>
      let rest := processAll st now reqs
      (rest.1, .error r :: rest.2)

/-- The account of the spec's concurrency race test: balance `B = 100`, nothing
staked, empty ledger. -/
def raceState : ServerState :=
  { account := { balance := 100, total_earned := 100, total_spent := 0 }, staked := 0, ledger := [] }

/-- A batch of spend proposals in commit order whose total (150) exceeds the
balance 100 of `raceState`, but where a later proposal still fits after an
earlier rejection. -/
def raceRequests : List TxRequest :=
  [ { amount := 60, type := .spend, source := "purchase", description := "p1" },
    { amount := 60, type := .spend, source := "purchase", description := "p2" },
    { amount := 30, type := .spend, source := "purchase", description := "p3" } ]

/-- The claim's "exactly the prefix (in commit order) ... is accepted", stated
of a verdict list: acceptance is downward closed in commit order, so the
accepted requests form an initial segment. (Out-of-range positions read as
rejections.) -/
def acceptedIsDownwardClosed (res : List (Except RejectReason Unit)) : Prop :=
  ∀ i j : ℕ, i ≤ j → (res.getD j (.error .insufficientBalance)).isOk = true →
    (res.getD i (.error .insufficientBalance)).isOk = true

/-- The per-proposal verdicts predicted by the spec's race test, amended: a
proposal is accepted exactly when its amount fits within the balance remaining
after the previously accepted proposals, and every proposal that would
overdraw is rejected with `InsufficientBalance`. Compared against `processAll`
in the amended claim. -/
def linearVerdicts (b : ℚ) : List ℚ → List (Except RejectReason Unit)
  | [] => []
  | a :: as =>
    if a ≤ b then .ok () :: linearVerdicts (b - a) as
    else .error .insufficientBalance :: linearVerdicts b as

/-- Total amount accepted by `linearVerdicts` from balance `b`. -/
def acceptedSum (b : ℚ) : List ℚ → ℚ
  | [] => 0
  | a :: as => if a ≤ b then a + acceptedSum (b - a) as else acceptedSum b as

/-- The client-side balance check fires on a present snapshot exactly for
spend/stake amounts above the cached balance. -/
theorem insufficientClientCheck_some (t : UserTokens) (req : TxRequest) :
    insufficientClientCheck (some t) req = true ↔
      ((req.type = .spend ∨ req.type = .stake) ∧ t.balance < req.amount) := by
  simp [insufficientClientCheck]

/-- Characterization of the processor's `InsufficientBalance` rejection: a
positive spend/stake amount above the server-side balance. -/
theorem proposeTransaction_error_insufficient (st : ServerState) (now : ℕ) (req : TxRequest) :
    proposeTransaction st now req = .error .insufficientBalance ↔
      (¬req.amount ≤ 0 ∧ (req.type = .spend ∨ req.type = .stake) ∧
        st.account.balance < req.amount) := by
  rw [proposeTransaction]
  split
  next h1 => simp [h1]
  next h1 =>
    split
    next h2 => simp [h1, h2]
    next h2 =>
      split
      next h3 => simp [h2]
      next h3 =>
        split
        next h4 => simp [h2]
        next h4 => simp [h2]

/-- `createdAtDesc` is transitive. -/
theorem createdAtDesc_trans :
    ∀ a b c : TokenTransaction, createdAtDesc a b → createdAtDesc b c → createdAtDesc a c := by
  intro a b c hab hbc
  simp only [createdAtDesc, decide_eq_true_eq] at *
  omega

/-- `createdAtDesc` is total. -/
theorem createdAtDesc_total :
    ∀ a b : TokenTransaction, createdAtDesc a b || createdAtDesc b a := by
  intro a b
  simp only [createdAtDesc, Bool.or_eq_true, decide_eq_true_eq]
  omega

/-- Claim C1: with the account snapshot present and agreeing with the
server-side balance, a proposal is rejected with `InsufficientBalance` (at
either layer) exactly when its type is spend or stake and its amount exceeds
the current balance; the sufficiency check passes otherwise and applies to no
other type. -/
theorem claim_C1 (t : UserTokens) (st : ServerState) (now : ℕ) (req : TxRequest)
    (hbal : st.account.balance = t.balance) :
    ((updateTokensMutationFn true (some t) st now req).2 = .error .insufficientBalance ∨
     (updateTokensMutationFn true (some t) st now req).2 =
        .error (.processorReject .insufficientBalance)) ↔
    ((req.type = .spend ∨ req.type = .stake) ∧ t.balance < req.amount) := by
  by_cases hc : insufficientClientCheck (some t) req = true
  · have hr := (insufficientClientCheck_some t req).mp hc
    simp [updateTokensMutationFn, hc, hr]
  · have hr : ¬((req.type = .spend ∨ req.type = .stake) ∧ t.balance < req.amount) :=
      fun hx => hc ((insufficientClientCheck_some t req).mpr hx)
    rw [Bool.not_eq_true] at hc
    have hm : updateTokensMutationFn true (some t) st now req =
        invokeUpdateUserTokens st now req := by
      rw [updateTokensMutationFn]
      simp [hc]
    rw [hm, invokeUpdateUserTokens]
    cases hp : proposeTransaction st now req with
    | ok st' => simp [hr]
    | error r =>
      have hne : r ≠ .insufficientBalance := by
        intro hre
        subst hre
        have hchar := (proposeTransaction_error_insufficient st now req).mp hp
        rw [hbal] at hchar
        exact hr hchar.2
      simp [hr, hne]

/-- Witness for C1 at the spec's Scenario-5 shape: a spend of 150 against
balance 100 is rejected with `InsufficientBalance`. -/
theorem claim_C1_witness :
    ((updateTokensMutationFn true (some ⟨100, 100, 0⟩) ⟨⟨100, 100, 0⟩, 0, []⟩ 0
        ⟨150, .spend, "purchase", "d"⟩).2 = .error .insufficientBalance ∨
     (updateTokensMutationFn true (some ⟨100, 100, 0⟩) ⟨⟨100, 100, 0⟩, 0, []⟩ 0
        ⟨150, .spend, "purchase", "d"⟩).2 = .error (.processorReject .insufficientBalance)) ↔
    ((TxType.spend = TxType.spend ∨ TxType.spend = TxType.stake) ∧ (100 : ℚ) < 150) :=
  claim_C1 ⟨100, 100, 0⟩ ⟨⟨100, 100, 0⟩, 0, []⟩ 0 ⟨150, .spend, "purchase", "d"⟩ rfl

/-- Claim C2: the account read returns the existing row when one exists (store
unchanged), and otherwise creates exactly one account with the starting grant
balance = totalEarned = 1000, totalSpent = 0 and returns that snapshot. -/
theorem claim_C2 (db : Option UserTokens) :
    (db = none → userTokensQueryFn db = (some startingGrant, startingGrant)) ∧
    (∀ a, db = some a → userTokensQueryFn db = (some a, a)) ∧
    startingGrant = { balance := 1000, total_earned := 1000, total_spent := 0 } := by
  refine ⟨?_, ?_, rfl⟩
  · rintro rfl; rfl
  · rintro a rfl; rfl

/-- Witness for C2: creation from an empty store, and reading back an existing
row. -/
theorem claim_C2_witness :
    userTokensQueryFn none = (some startingGrant, startingGrant) ∧
    userTokensQueryFn (some ⟨2, 3, 4⟩) = (some ⟨2, 3, 4⟩, ⟨2, 3, 4⟩) :=
  ⟨(claim_C2 none).1 rfl, (claim_C2 (some ⟨2, 3, 4⟩)).2.1 ⟨2, 3, 4⟩ rfl⟩

/-- Claim C3: a stake below the minimum of 100 is rejected both by the UI
handler (client-side check) and, mirroring it, by the processor itself with
`BelowMinimumStake` (when the earlier validation steps pass). -/
theorem claim_C3 (a : ℚ) (st : ServerState) (now : ℕ) (req : TxRequest)
    (ha0 : 0 < a) (ha : a < 100)
    (hty : req.type = .stake) (hpos : 0 < req.amount)
    (hfit : req.amount ≤ st.account.balance) (hmin : req.amount < 100) :
    handleStake (some a) = .minimumStakeToast ∧
    proposeTransaction st now req = .error .belowMinimumStake := by
  refine ⟨?_, ?_⟩
  · rw [handleStake]
    simp [not_le.mpr ha0, ha]
  · rw [proposeTransaction]
    simp [hty, not_le.mpr hpos, not_lt.mpr hfit, hmin]

/-- Witness for C3 at the spec's Scenario 3: a stake of 50 is rejected below
minimum by both layers. -/
theorem claim_C3_witness :
    handleStake (some 50) = .minimumStakeToast ∧
    proposeTransaction ⟨⟨1000, 1000, 0⟩, 0, []⟩ 0 ⟨50, .stake, "staking", "d"⟩ =
      .error .belowMinimumStake :=
  claim_C3 50 ⟨⟨1000, 1000, 0⟩, 0, []⟩ 0 ⟨50, .stake, "staking", "d"⟩
    (by norm_num) (by norm_num) rfl (by norm_num) (by norm_num) (by norm_num)

/-- Claim C4: a positive unstake is rejected with `ExceedsStakedAmount` exactly
when its amount exceeds the currently staked (and not yet unstaked) amount, and
is accepted otherwise. -/
theorem claim_C4 (st : ServerState) (now : ℕ) (req : TxRequest)
    (hty : req.type = .unstake) (hpos : 0 < req.amount) :
    (proposeTransaction st now req = .error .exceedsStakedAmount ↔ st.staked < req.amount) ∧
    (req.amount ≤ st.staked → (proposeTransaction st now req).isOk = true) := by
  refine ⟨⟨?_, ?_⟩, ?_⟩
  · intro h
    by_contra hne
    rw [proposeTransaction] at h
    simp [hty, not_le.mpr hpos, hne] at h
  · intro h
    rw [proposeTransaction]
    simp [hty, not_le.mpr hpos, h]
  · intro h
    rw [proposeTransaction]
    simp [hty, not_le.mpr hpos, not_lt.mpr h, Except.isOk, Except.toBool]

/-- Witness for C4: unstaking 500 with only 200 staked. -/
theorem claim_C4_witness :
    (proposeTransaction ⟨⟨900, 1100, 200⟩, 200, []⟩ 0 ⟨500, .unstake, "staking", "d"⟩ =
        .error .exceedsStakedAmount ↔ (200 : ℚ) < 500) ∧
    ((500 : ℚ) ≤ 200 → (proposeTransaction ⟨⟨900, 1100, 200⟩, 200, []⟩ 0
        ⟨500, .unstake, "staking", "d"⟩).isOk = true) :=
  claim_C4 ⟨⟨900, 1100, 200⟩, 200, []⟩ 0 ⟨500, .unstake, "staking", "d"⟩ rfl (by norm_num)

/-- Claim C5: for every state and every request of any type, the processor
rejects with `InvalidAmount` precisely the non-positive amounts, before any
other validation (the rejection is independent of balance, stake minimum and
staked amount) and without producing any new state; the stake handler likewise
rejects `NaN`, zero and negative inputs before constructing a request. -/
theorem claim_C5 (st : ServerState) (now : ℕ) (req : TxRequest) :
    (proposeTransaction st now req = .error .invalidAmount ↔ req.amount ≤ 0) ∧
    handleStake none = .invalidAmountToast ∧
    (∀ a : ℚ, a ≤ 0 → handleStake (some a) = .invalidAmountToast) := by
  refine ⟨?_, rfl, ?_⟩
  · rw [proposeTransaction]
    split
    next h1 => simp [h1]
    next h1 =>
      split
      next => simp [h1]
      next =>
        split
        next => simp [h1]
        next =>
          split
          next => simp [h1]
          next => simp [h1]
  · intro a ha
    rw [handleStake]
    simp [ha]

/-- Witness for C5: a spend of -5 is rejected `InvalidAmount`, and a stake
input of -1 is rejected by the handler. -/
theorem claim_C5_witness :
    proposeTransaction ⟨⟨1000, 1000, 0⟩, 0, []⟩ 0 ⟨-5, .spend, "s", "d"⟩ =
      .error .invalidAmount ∧
    handleStake (some (-1)) = .invalidAmountToast :=
  ⟨(claim_C5 ⟨⟨1000, 1000, 0⟩, 0, []⟩ 0 ⟨-5, .spend, "s", "d"⟩).1.mpr (by norm_num),
   (claim_C5 ⟨⟨1000, 1000, 0⟩, 0, []⟩ 0 ⟨-5, .spend, "s", "d"⟩).2.2 (-1) (by norm_num)⟩

/-- Claim C6: whenever the mutation resolves to an error — authentication
guard, client-side balance check, or any processor rejection — the server
state (account fields, staked counter and transaction ledger) is left
unchanged. -/
theorem claim_C6 (userPresent : Bool) (userTokens : Option UserTokens)
    (st : ServerState) (now : ℕ) (req : TxRequest)
    (h : (updateTokensMutationFn userPresent userTokens st now req).2.isOk = false) :
    (updateTokensMutationFn userPresent userTokens st now req).1 = st := by
  by_cases hu : userPresent = false
  · rw [updateTokensMutationFn, if_pos hu]
  · by_cases hcb : insufficientClientCheck userTokens req = true
    · rw [updateTokensMutationFn, if_neg hu, if_pos hcb]
    · rw [updateTokensMutationFn, if_neg hu, if_neg hcb, invokeUpdateUserTokens] at h ⊢
      cases hp : proposeTransaction st now req with
      | ok st' =>
        rw [hp] at h
        simp [Except.isOk, Except.toBool] at h
      | error r => rfl

/-- Witness for C6: a rejected spend of 50 against balance 10 leaves the
server state untouched. -/
theorem claim_C6_witness :
    ((updateTokensMutationFn true (some ⟨10, 10, 0⟩) ⟨⟨10, 10, 0⟩, 0, []⟩ 0
        ⟨50, .spend, "purchase", "d"⟩).2.isOk = false) ∧
    (updateTokensMutationFn true (some ⟨10, 10, 0⟩) ⟨⟨10, 10, 0⟩, 0, []⟩ 0
        ⟨50, .spend, "purchase", "d"⟩).1 = ⟨⟨10, 10, 0⟩, 0, []⟩ :=
  ⟨by simp [updateTokensMutationFn, insufficientClientCheck, Except.isOk, Except.toBool]
      norm_num,
   claim_C6 true (some ⟨10, 10, 0⟩) ⟨⟨10, 10, 0⟩, 0, []⟩ 0 ⟨50, .spend, "purchase", "d"⟩
     (by simp [updateTokensMutationFn, insufficientClientCheck, Except.isOk, Except.toBool]
         norm_num)⟩

/-- Claim C7: listing recent transactions returns at most 20 entries — the
initial segment of the stable descending sort of the ledger — so the result is
ordered by `created_at` descending, every omitted entry is no more recent than
every returned one, and entries with equal timestamps keep insertion order
(the sorted sequence filtered to one timestamp equals the ledger so
filtered). -/
theorem claim_C7 (ledger : List TokenTransaction) :
    (transactionsQueryFn ledger).length ≤ 20 ∧
    transactionsQueryFn ledger = (ledger.mergeSort createdAtDesc).take 20 ∧
    (ledger.mergeSort createdAtDesc).Perm ledger ∧
    (ledger.mergeSort createdAtDesc).Pairwise (fun a b => b.created_at ≤ a.created_at) ∧
    (∀ x ∈ transactionsQueryFn ledger, ∀ y ∈ (ledger.mergeSort createdAtDesc).drop 20,
        y.created_at ≤ x.created_at) ∧
    (∀ c : ℕ, (ledger.mergeSort createdAtDesc).filter (fun t => t.created_at == c) =
        ledger.filter (fun t => t.created_at == c)) := by
  have hpair : (ledger.mergeSort createdAtDesc).Pairwise
      (fun a b => b.created_at ≤ a.created_at) := by
    have hs := List.sorted_mergeSort createdAtDesc_trans createdAtDesc_total ledger
    exact hs.imp (by intro a b h; simpa [createdAtDesc] using h)
  refine ⟨List.length_take_le 20 _, rfl, List.mergeSort_perm ledger createdAtDesc, hpair,
    ?_, ?_⟩
  · intro x hx y hy
    have hp2 : ((ledger.mergeSort createdAtDesc).take 20 ++
        (ledger.mergeSort createdAtDesc).drop 20).Pairwise
        (fun a b => b.created_at ≤ a.created_at) := by
      rw [List.take_append_drop]
      exact hpair
    exact (List.pairwise_append.mp hp2).2.2 x hx y hy
  · intro c
    have hmem : ∀ t ∈ ledger.filter (fun t => t.created_at == c), t.created_at = c := by
      intro t ht
      simpa using (List.mem_filter.mp ht).2
    have hpw : (ledger.filter (fun t => t.created_at == c)).Pairwise
        (fun a b => createdAtDesc a b = true) := by
      apply List.pairwise_of_forall_mem_list
      intro a ha b hb
      simp [createdAtDesc, hmem a ha, hmem b hb]
    have hsub : List.Sublist (ledger.filter (fun t => t.created_at == c))
        (ledger.mergeSort createdAtDesc) :=
      List.sublist_mergeSort createdAtDesc_trans createdAtDesc_total hpw
        (List.filter_sublist ledger)
    have h1 := hsub.filter (fun t => t.created_at == c)
    have h2 : (ledger.filter (fun t => t.created_at == c)).filter
          (fun t => t.created_at == c) =
        ledger.filter (fun t => t.created_at == c) := by
      rw [List.filter_eq_self]
      intro a ha
      exact (List.mem_filter.mp ha).2
    rw [h2] at h1
    have hlen : ((ledger.mergeSort createdAtDesc).filter (fun t => t.created_at == c)).length =
        (ledger.filter (fun t => t.created_at == c)).length :=
      ((List.mergeSort_perm ledger createdAtDesc).filter _).length_eq
    exact (h1.eq_of_length hlen.symm).symm

/-- A small concrete ledger with a timestamp tie, to exercise C7. -/
def tieLedger : List TokenTransaction :=
  [ { transaction_type := .earn, amount := 1, source := "a", description := "d", created_at := 5 },
    { transaction_type := .earn, amount := 2, source := "b", description := "d", created_at := 5 },
    { transaction_type := .spend, amount := 3, source := "c", description := "d", created_at := 9 } ]

/-- Witness for C7 on `tieLedger`: the length bound and the tie-stability
conjunct instantiated at timestamp 5. -/
theorem claim_C7_witness :
    (transactionsQueryFn tieLedger).length ≤ 20 ∧
    (tieLedger.mergeSort createdAtDesc).filter (fun t => t.created_at == 5) =
      tieLedger.filter (fun t => t.created_at == 5) :=
  ⟨(claim_C7 tieLedger).1, (claim_C7 tieLedger).2.2.2.2.2 5⟩

/-- Claim C8: the daily-reward claim is exactly the proposal `earn 100` from
source `daily_reward`; it is always accepted, raises balance and totalEarned
by 100, leaves totalSpent (and the staked counter) unchanged, and appends one
`earn` ledger entry of amount 100. -/
theorem claim_C8 (st : ServerState) (now : ℕ) :
    handleClaimRewards =
      { amount := 100, type := .earn, source := "daily_reward",
        description := "Daily login reward" } ∧
    proposeTransaction st now handleClaimRewards =
      .ok { account := { balance := st.account.balance + 100,
                         total_earned := st.account.total_earned + 100,
                         total_spent := st.account.total_spent },
            staked := st.staked,
            ledger := st.ledger ++
              [{ transaction_type := .earn, amount := 100, source := "daily_reward",
                 description := "Daily login reward", created_at := now }] } := by
  refine ⟨rfl, ?_⟩
  rw [proposeTransaction]
  norm_num [handleClaimRewards]
  simp

/-- Claim C9, counterexample to the statement as given: under the mandated
per-account linearization, spends of 60, 60, 30 against balance 100 yield
verdicts accept, reject (`InsufficientBalance`), accept — the accepted set is
not a prefix of the commit order, because the third proposal still fits after
the second is rejected without side effects. -/
theorem claim_C9_counterexample :
    (processAll raceState 0 raceRequests).2 =
      [.ok (), .error .insufficientBalance, .ok ()] ∧
    ¬ acceptedIsDownwardClosed (processAll raceState 0 raceRequests).2 := by
  have hres : (processAll raceState 0 raceRequests).2 =
      [.ok (), .error .insufficientBalance, .ok ()] := by
    simp [processAll, proposeTransaction, raceState, raceRequests]
    norm_num
  refine ⟨hres, ?_⟩
  intro hdc
  have h2 := hdc 1 2 (by norm_num)
  rw [hres] at h2
  simp [Except.isOk, Except.toBool] at h2

/-- Claim C9, amended: for a batch of positive spend/stake proposals (stakes
at least 100) processed in commit order against balance B ≥ 0, each proposal
is accepted exactly when its amount fits the balance remaining after the
previously accepted ones, every proposal that would overdraw is rejected with
`InsufficientBalance` (this is `linearVerdicts`), and the total accepted
amount never exceeds B. -/
theorem claim_C9_amended (st : ServerState) (now : ℕ) (reqs : List TxRequest)
    (h0 : 0 ≤ st.account.balance)
    (hv : ∀ r ∈ reqs, (r.type = .spend ∨ r.type = .stake) ∧ 0 < r.amount ∧
            (r.type = .stake → 100 ≤ r.amount)) :
    (processAll st now reqs).2 = linearVerdicts st.account.balance (reqs.map (·.amount)) ∧
    (processAll st now reqs).1.account.balance =
      st.account.balance - acceptedSum st.account.balance (reqs.map (·.amount)) ∧
    0 ≤ acceptedSum st.account.balance (reqs.map (·.amount)) ∧
    acceptedSum st.account.balance (reqs.map (·.amount)) ≤ st.account.balance := by
  induction reqs generalizing st with
  | nil => simpa [processAll, linearVerdicts, acceptedSum] using h0
  | cons r rs ih =>
    obtain ⟨hty, hpos, hstk⟩ := hv r (List.mem_cons_self r rs)
    have hv' := fun x hx => hv x (List.mem_cons_of_mem r hx)
    by_cases hfit : r.amount ≤ st.account.balance
    · have hacc :
        proposeTransaction st now r =
          .ok { account := { balance := st.account.balance - r.amount,
                             total_earned := st.account.total_earned,
                             total_spent := st.account.total_spent + r.amount },
                staked := if r.type = .stake then st.staked + r.amount else st.staked,
                ledger := st.ledger ++ [{ transaction_type := r.type, amount := r.amount,
                                          source := r.source, description := r.description,
                                          created_at := now }] } := by
        rcases hty with h | h
        · rw [proposeTransaction]
          simp [h, not_le.mpr hpos, not_lt.mpr hfit]
        · rw [proposeTransaction]
          simp [h, not_le.mpr hpos, not_lt.mpr hfit, not_lt.mpr (hstk h)]
      obtain ⟨ih1, ih2, ih3, ih4⟩ :=
        ih { account := { balance := st.account.balance - r.amount,
                          total_earned := st.account.total_earned,
                          total_spent := st.account.total_spent + r.amount },
             staked := if r.type = .stake then st.staked + r.amount else st.staked,
             ledger := st.ledger ++ [{ transaction_type := r.type, amount := r.amount,
                                       source := r.source, description := r.description,
                                       created_at := now }] }
          (by simpa using sub_nonneg.mpr hfit) hv'
      simp only at ih1 ih2 ih3 ih4
      refine ⟨?_, ?_, ?_, ?_⟩
      · simp only [processAll, hacc, List.map_cons, linearVerdicts, if_pos hfit]
        simpa using ih1
      · simp only [processAll, hacc, List.map_cons, acceptedSum, if_pos hfit]
        rw [ih2]
        ring
      · simp only [List.map_cons, acceptedSum, if_pos hfit]
        linarith
      · simp only [List.map_cons, acceptedSum, if_pos hfit]
        linarith
    · have hrej : proposeTransaction st now r = .error .insufficientBalance := by
        rw [proposeTransaction, if_neg (not_le.mpr hpos), if_pos ⟨hty, not_le.mp hfit⟩]
      obtain ⟨ih1, ih2, ih3, ih4⟩ := ih st h0 hv'
      refine ⟨?_, ?_, ?_, ?_⟩
      · simp only [processAll, hrej, List.map_cons, linearVerdicts, if_neg hfit]
        simpa using ih1
      · simp only [processAll, hrej, List.map_cons, acceptedSum, if_neg hfit]
        simpa using ih2
      · simp only [List.map_cons, acceptedSum, if_neg hfit]
        exact ih3
      · simp only [List.map_cons, acceptedSum, if_neg hfit]
        exact ih4

/-- Witness for the amended C9 on the race batch: verdicts match
`linearVerdicts`, the final balance is B minus the accepted total, and the
accepted total stays within B. -/
theorem claim_C9_amended_witness :
    (processAll raceState 0 raceRequests).2 =
      linearVerdicts raceState.account.balance (raceRequests.map (·.amount)) ∧
    (processAll raceState 0 raceRequests).1.account.balance =
      raceState.account.balance -
        acceptedSum raceState.account.balance (raceRequests.map (·.amount)) ∧
    0 ≤ acceptedSum raceState.account.balance (raceRequests.map (·.amount)) ∧
    acceptedSum raceState.account.balance (raceRequests.map (·.amount)) ≤
      raceState.account.balance :=
  claim_C9_amended raceState 0 raceRequests (by norm_num [raceState])
    (by intro r hr; fin_cases hr <;> exact ⟨Or.inl rfl, by norm_num, fun h => by simp at h⟩)

/-- Claim C10: when no cached snapshot is present, the client-side balance
check never fires, and every proposal — any type, any amount — is forwarded
unchanged to the remote update call. -/
theorem claim_C10 (st : ServerState) (now : ℕ) (req : TxRequest) :
    insufficientClientCheck none req = false ∧
    updateTokensMutationFn true none st now req = invokeUpdateUserTokens st now req := by
  refine ⟨?_, ?_⟩
  · simp [insufficientClientCheck]
  · rw [updateTokensMutationFn]
    simp [insufficientClientCheck]

end TokenManagement
